import Mathlib

/-!
Verification of the weighted-interval scheduler in `scheduler/dpscheduler.go`.

The data model and operations below are a shallow embedding of the Go source:
timestamps (`time.Time`) become `Int` instants (`Before`/`After`/`Equal`
become `<`/`>`/`=`), the `float64` priority becomes `ℚ`, Go slices become
`List`s indexed with `List.getD`, and the in-place loops of `FindBestSchedule`
become structurally recursive functions that thread the same state.
-/

set_option allowUnsafeReducibility true

attribute [local semireducible] Rat.add

namespace Scheduler

/-- Mirrors `type Task struct` in `scheduler/types.go`: a start instant, an
end instant, and a priority (weight). -/
structure Task where
  StartTime : Int
  EndTime : Int
  Priority : ℚ
  deriving DecidableEq

instance : Inhabited Task := ⟨⟨0, 0, 0⟩⟩

/-- Mirrors `isZeroDuration` in `dpscheduler.go`:
`!task.EndTime.After(task.StartTime)`, i.e. the end does not lie strictly
after the start. -/
def isZeroDuration (task : Task) : Bool :=
  ! decide (task.StartTime < task.EndTime)

/-- Mirrors `tasksConflict` in `dpscheduler.go` line for line: zero-duration
pairs conflict on equal start instants; a zero-duration task conflicts with a
normal task when its instant lies inside the closed interval; two normal
tasks conflict on open-interval overlap. -/
def tasksConflict (task1 task2 : Task) : Bool :=
  if isZeroDuration task1 && isZeroDuration task2 then
    decide (task1.StartTime = task2.StartTime)
  else if isZeroDuration task1 then
    (! decide (task1.StartTime < task2.StartTime)) &&
      (! decide (task2.EndTime < task1.StartTime))
  else if isZeroDuration task2 then
    (! decide (task2.StartTime < task1.StartTime)) &&
      (! decide (task1.EndTime < task2.StartTime))
  else
    decide (task1.StartTime < task2.EndTime) &&
      decide (task2.StartTime < task1.EndTime)

/-- The sort key used by the `sort.Slice` comparator in `FindBestSchedule`
(lines 96-107): the end time, except that zero-duration tasks use their start
time. -/
def anchorTime (task : Task) : Int :=
  if isZeroDuration task then task.StartTime else task.EndTime

/-- One insertion step of the stable insertion sort on the `anchorTime` key.
For the list lengths involved in the claims the Go `sort.Slice` runs its
insertion-sort small case, which is stable, so the stable order is the one
the source produces. -/
def insertSorted (task : Task) : List Task → List Task
  | [] => [task]
  | x :: xs =>
    if anchorTime task < anchorTime x then task :: x :: xs
    else x :: insertSorted task xs

/-- The sort performed at the top of `FindBestSchedule`: stable sort
ascending by `anchorTime`, mirroring the `sort.Slice` call with the
`Before` comparator. -/
def sortTasks (tasks : List Task) : List Task :=
  tasks.foldl (fun acc task => insertSorted task acc) []

/-- Mirrors the rejection-reason constants `RejectionReasonLowPriority` and
`RejectionReasonConflict` used by `dpscheduler.go` (their declaration file is
not under `src/`; the two constants and their names are taken from their uses
in `FindBestSchedule`). -/
inductive RejectionReason where
  | RejectionReasonLowPriority
  | RejectionReasonConflict
  deriving DecidableEq

/-- Mirrors the `RejectedTask` struct as used by `FindBestSchedule`: the
rejected task, an optional pointer to the conflicting chosen task
(`CausedBy`), and the reason. -/
structure RejectedTask where
  TaskRejected : Task
  CausedBy : Option Task
  Reason : RejectionReason
  deriving DecidableEq

/-- The binary-search loop body of `findBestPreviousTask` (lines 67-77),
with an explicit fuel argument; `findBestPreviousTask` supplies fuel equal to
the initial interval size, which is enough for the loop to reach its exit
condition because each iteration shrinks `[startSearch, endSearch]`.
The Go integer division truncates toward zero while the Lean `/` on `Int` rounds
down; the two agree wherever the midpoint is computed, since the loop keeps
`0 ≤ startSearch ≤ endSearch` at that point. -/
def searchLoop (tasks : List Task) (currentTask : Task) :
    Nat → Int → Int → Int → Int
  | 0, _, _, bestPreviousTask => bestPreviousTask
  | fuel + 1, startSearch, endSearch, bestPreviousTask =>
    if startSearch ≤ endSearch then
      let middleTask := (startSearch + endSearch) / 2
      if ! tasksConflict (tasks.getD middleTask.toNat default) currentTask then
        searchLoop tasks currentTask fuel (middleTask + 1) endSearch middleTask
      else
        searchLoop tasks currentTask fuel startSearch (middleTask - 1)
          bestPreviousTask
    else bestPreviousTask

/-- Mirrors `findBestPreviousTask` in `dpscheduler.go`: binary search over
positions `[0, currentTaskIndex-1]` for a latest non-conflicting predecessor,
returning `-1` when none is found. -/
def findBestPreviousTask (tasks : List Task) (currentTaskIndex : Nat) : Int :=
  searchLoop tasks (tasks.getD currentTaskIndex default) currentTaskIndex
    0 ((currentTaskIndex : Int) - 1) (-1)

/-- The DP fill of `FindBestSchedule` (lines 115-163). `dpAux tasks i`
returns the `bestPriorityUpToTask` and `previousTaskChosen` arrays for
positions `0..i` together with the low-priority rejections recorded so far,
exactly as the Go loop builds them. -/
def dpAux (tasks : List Task) : Nat → List ℚ × List Int × List RejectedTask
  | 0 => ([(tasks.getD 0 default).Priority], [-1], [])
  | currentTask + 1 =>
    let tables := dpAux tasks currentTask
    let bestPriorityUpToTask := tables.1
    let previousTaskChosen := tables.2.1
    let rejectedTasks := tables.2.2
    let bestPrevious := findBestPreviousTask tasks (currentTask + 1)
    let priorityIfIncluded :=
      (tasks.getD (currentTask + 1) default).Priority +
        (if bestPrevious ≠ -1 then
          bestPriorityUpToTask.getD bestPrevious.toNat 0
        else 0)
    let priorityIfExcluded := bestPriorityUpToTask.getD currentTask 0
    if priorityIfIncluded > priorityIfExcluded then
      (bestPriorityUpToTask ++ [priorityIfIncluded],
       previousTaskChosen ++ [bestPrevious],
       rejectedTasks)
    else
      (bestPriorityUpToTask ++ [priorityIfExcluded],
       previousTaskChosen ++ [previousTaskChosen.getD currentTask (-1)],
       rejectedTasks ++
         [⟨tasks.getD (currentTask + 1) default, none,
           RejectionReason.RejectionReasonLowPriority⟩])

/-- The backward reconstruction loop of `FindBestSchedule` (lines 170-178 and
the identical loop at lines 208-215): walk `i` down from `numTasks-1`,
selecting position `i` when `i == 0` or the DP value changed there, then
jumping to `previousTaskChosen[i]`, otherwise decrementing.  Returns the
selected positions in visit order.  Fuel `numTasks` covers every run the Go
loop terminates on, since `previousTaskChosen[i] < i` in every reachable
state. -/
def backtrack (bestPriorityUpToTask : List ℚ) (previousTaskChosen : List Int) :
    Nat → Int → List Nat
  | 0, _ => []
  | fuel + 1, i =>
    if 0 ≤ i then
      if i = 0 ∨
          bestPriorityUpToTask.getD i.toNat 0 ≠
            bestPriorityUpToTask.getD (i.toNat - 1) 0 then
        i.toNat ::
          backtrack bestPriorityUpToTask previousTaskChosen fuel
            (previousTaskChosen.getD i.toNat (-1))
      else
        backtrack bestPriorityUpToTask previousTaskChosen fuel (i - 1)
    else []

/-- The conflict-rejection scan of `FindBestSchedule` (lines 181-207): every
position not chosen and whose task value is not already in the rejected list
is matched against the first chosen position it conflicts with. -/
def conflictScan (sorted : List Task) (chosenIndexes : List Nat)
    (rejectedTasks : List RejectedTask) : List RejectedTask :=
  (List.range sorted.length).foldl
    (fun rej i =>
      if i ∈ chosenIndexes then rej
      else if rej.any (fun r => decide (r.TaskRejected = sorted.getD i default)) then
        rej
      else
        match (List.range sorted.length).find?
            (fun j => decide (j ∈ chosenIndexes) &&
              tasksConflict (sorted.getD i default) (sorted.getD j default)) with
        | some j =>
          rej ++ [⟨sorted.getD i default, some (sorted.getD j default),
            RejectionReason.RejectionReasonConflict⟩]
        | none => rej)
    rejectedTasks

/-- Mirrors `FindBestSchedule` in `dpscheduler.go`: empty-input early return,
sort, DP fill, backward reconstruction (run twice, as the source repeats the
identical loop at lines 170-178 and 208-215), conflict-rejection scan, and the
final in-place reversal of the chosen list. -/
def FindBestSchedule (tasks : List Task) :
    List Task × ℚ × List RejectedTask :=
  if tasks.length = 0 then ([], 0, [])
  else
    let sorted := sortTasks tasks
    let numTasks := sorted.length
    let tables := dpAux sorted (numTasks - 1)
    let bestPriorityUpToTask := tables.1
    let previousTaskChosen := tables.2.1
    let firstPass :=
      backtrack bestPriorityUpToTask previousTaskChosen numTasks
        ((numTasks : Int) - 1)
    let chosenTasks1 := firstPass.map (fun i => sorted.getD i default)
    let rejectedTasks := conflictScan sorted firstPass tables.2.2
    let secondPass :=
      backtrack bestPriorityUpToTask previousTaskChosen numTasks
        ((numTasks : Int) - 1)
    let chosenTasks := chosenTasks1 ++ secondPass.map (fun i => sorted.getD i default)
    (chosenTasks.reverse, bestPriorityUpToTask.getD (numTasks - 1) 0,
      rejectedTasks)

/-!
Spec-side reference definitions.  These follow the wording of `spec.md`
rather than the Go source, and exist only to be compared with the embedded
code: `conflictsSpec` states the three-case conflict rule of spec §4.1,
`linearScanBestPrevious` is the linear scan that the binary-search property of the spec
compares against (§8), and `maxSubsetWeight` is the brute-force optimum of
the optimality property of the spec (§8).
-/

/-- The three-case conflict definition exactly as the spec states it
(§4.1): equal anchor instants for two zero-duration tasks; inclusive
containment `s ≤ t ≤ e` for a zero-duration task against a normal one; and
open-interval overlap for two normal tasks. -/
def conflictsSpec (a b : Task) : Bool :=
  if isZeroDuration a && isZeroDuration b then
    decide (a.StartTime = b.StartTime)
  else if isZeroDuration a then
    decide (b.StartTime ≤ a.StartTime ∧ a.StartTime ≤ b.EndTime)
  else if isZeroDuration b then
    decide (a.StartTime ≤ b.StartTime ∧ b.StartTime ≤ a.EndTime)
  else
    decide (a.StartTime < b.EndTime ∧ b.StartTime < a.EndTime)

/-- Linear scan over positions `0..n-1` (from position `n-1` downward) for
the greatest position whose task does not conflict with `currentTask`,
returning `-1` when every one conflicts: the reference computation the
binary-search property of the spec compares `findBestPreviousTask` against. -/
def scanBack (tasks : List Task) (currentTask : Task) : Nat → Int
  | 0 => -1
  | j + 1 =>
    if tasksConflict (tasks.getD j default) currentTask then
      scanBack tasks currentTask j
    else (j : Int)

/-- The linear-scan counterpart of `findBestPreviousTask`: the greatest
index `j < i` with `tasksConflict tasks[j] tasks[i] = false`, or `-1`. -/
def linearScanBestPrevious (tasks : List Task) (i : Nat) : Int :=
  scanBack tasks (tasks.getD i default) i

/-- Sum of the priorities (weights) of a list of tasks. -/
def sumPriorities (tasks : List Task) : ℚ :=
  (tasks.map Task.Priority).sum

/-- All pairs of tasks in the list are non-conflicting under
`tasksConflict`. -/
def pairwiseNonConflicting : List Task → Bool
  | [] => true
  | t :: ts => ts.all (fun u => ! tasksConflict t u) && pairwiseNonConflicting ts

/-- The optimality reference of the spec (§8): the maximum, over all subsets of
the input whose tasks are pairwise non-conflicting (the empty subset
included), of the sum of the weights in the subset. -/
def maxSubsetWeight (tasks : List Task) : ℚ :=
  ((tasks.sublists.filter pairwiseNonConflicting).map sumPriorities).foldl max 0

/-- The sequence is sorted (non-decreasing) by the sort key of
`FindBestSchedule`: end time for normal tasks, start time for zero-duration
tasks. -/
def SortedByAnchor (tasks : List Task) : Prop :=
  List.Pairwise (fun a b => anchorTime a ≤ anchorTime b) tasks

instance (tasks : List Task) : Decidable (SortedByAnchor tasks) := by
  unfold SortedByAnchor; infer_instance

/-- Unfolding lemma: a task is zero-duration exactly when its end does not
lie strictly after its start. -/
theorem isZeroDuration_true_iff (t : Task) :
    isZeroDuration t = true ↔ t.EndTime ≤ t.StartTime := by
  simp [isZeroDuration, Int.not_lt]

/-- Unfolding lemma: a task is normal exactly when its start lies strictly
before its end. -/
theorem isZeroDuration_false_iff (t : Task) :
    isZeroDuration t = false ↔ t.StartTime < t.EndTime := by
  simp [isZeroDuration]

/-- Claim C5 (confirmed): `tasksConflict` computes exactly the three-case
conflict definition of the spec — equal anchors for two zero-duration tasks,
inclusive containment for a zero-duration task against a normal one, and
open-interval overlap (abutting intervals do not conflict) for two normal
tasks. -/
theorem tasksConflict_eq_conflictsSpec (a b : Task) :
    tasksConflict a b = conflictsSpec a b := by
  unfold tasksConflict conflictsSpec
  cases h1 : isZeroDuration a <;> cases h2 : isZeroDuration b <;>
    simp [Int.not_lt] <;> (rw [Bool.eq_iff_iff]; simp [Int.not_lt])

/-- Claim C10 (confirmed): `tasksConflict` is reflexive — every task
(normal, zero-duration, or with inverted start/end) conflicts with an
identical copy of itself. -/
theorem tasksConflict_refl (t : Task) : tasksConflict t t = true := by
  by_cases h : t.StartTime < t.EndTime
  · have hz : isZeroDuration t = false := (isZeroDuration_false_iff t).mpr h
    simp [tasksConflict, hz, h]
  · have hz : isZeroDuration t = true := by simp [isZeroDuration, h]
    simp [tasksConflict, hz]

/-- Claim C8 (confirmed): on the empty task list `FindBestSchedule` returns
an empty selected list, total weight `0`, and an empty rejected list, as a
normal result. -/
theorem FindBestSchedule_empty : FindBestSchedule [] = ([], 0, []) := by
  decide

/-- Claim C1 (code_bug evidence): on the input
`[zero-duration@10 w=1, [5,10] w=10, [10,20] w=10]` the returned total
weight is `10`, while the best pairwise non-conflicting subset (the two
normal tasks, which merely abut at instant 10) weighs `20`: the returned
weight is not the maximum over non-conflicting subsets. -/
theorem FindBestSchedule_suboptimal_at_tied_anchor :
    (FindBestSchedule [⟨10, 10, 1⟩, ⟨5, 10, 10⟩, ⟨10, 20, 10⟩]).2.1 = 10 ∧
      maxSubsetWeight [⟨10, 10, 1⟩, ⟨5, 10, 10⟩, ⟨10, 20, 10⟩] = 20 := by
  decide

/-- Claim C2 (code_bug evidence): a single-task input comes back with the
task listed twice in the selected list — the duplicated reconstruction loop
at lines 208-215 appends every chosen task a second time — so the union of
selected and rejected does not list each input task exactly once. -/
theorem FindBestSchedule_single_task_duplicated :
    FindBestSchedule [⟨9, 10, 5⟩] = ([⟨9, 10, 5⟩, ⟨9, 10, 5⟩], 5, []) := by
  decide

/-- Claim C3 (code_bug evidence): the selected list returned for a
single-task input contains two copies of the task, and that pair of selected
tasks conflicts (`tasksConflict` is reflexive), so not every pair of
selected tasks is non-conflicting. -/
theorem FindBestSchedule_selected_pair_conflicts :
    (FindBestSchedule [⟨0, 5, 7⟩]).1 = [⟨0, 5, 7⟩, ⟨0, 5, 7⟩] ∧
      tasksConflict ⟨0, 5, 7⟩ ⟨0, 5, 7⟩ = true := by
  decide

/-- Claim C4 (code_bug evidence): for the one-task input with inverted
times and negative weight, the total weight and empty rejected list match
the claim, but the selected list contains the task twice instead of exactly
once, again because of the duplicated reconstruction loop. -/
theorem FindBestSchedule_single_inverted_task :
    FindBestSchedule [⟨10, 9, -2⟩] = ([⟨10, 9, -2⟩, ⟨10, 9, -2⟩], -2, []) := by
  decide

/-- Claim C9 (counterexample): for two zero-duration tasks at the same
instant with weights 5 and 3, the selected list is not `[weight-5 task]`
(the task is listed twice), and no rejected task carries the conflict
reason — the weight-3 task is rejected as low-priority by the DP tie-break,
and the conflict scan skips tasks that are already rejected. -/
theorem zero_duration_pair_not_as_claimed :
    (FindBestSchedule [⟨100, 100, 5⟩, ⟨100, 100, 3⟩]).1 ≠ [⟨100, 100, 5⟩] ∧
      ∀ r ∈ (FindBestSchedule [⟨100, 100, 5⟩, ⟨100, 100, 3⟩]).2.2,
        r.Reason ≠ RejectionReason.RejectionReasonConflict := by
  decide

/-- Claim C9 (corrected): for two zero-duration tasks at the same instant
with weights 5 and 3, `FindBestSchedule` selects the weight-5 task (listed
twice by the duplicated reconstruction loop), returns total weight 5, and
rejects the weight-3 task with the low-priority (outweighed) reason and no
`CausedBy` reference. -/
theorem zero_duration_pair_actual_output :
    FindBestSchedule [⟨100, 100, 5⟩, ⟨100, 100, 3⟩] =
      ([⟨100, 100, 5⟩, ⟨100, 100, 5⟩], 5,
        [⟨⟨100, 100, 3⟩, none, RejectionReason.RejectionReasonLowPriority⟩]) := by
  decide

/-- Claim C6 (counterexample): a sequence sorted by anchor time on which
`findBestPreviousTask` and the linear scan disagree at position 2.  The
zero-duration task at instant 10 conflicts with `[10,20]` (inclusive
boundary) while the normal task `[5,10]` does not (open overlap), so
non-conflict is not a prefix of the sorted order: the binary search probes
position 0, sees a conflict, discards position 1, and returns `-1`, while
the linear scan returns `1`. -/
theorem findBestPreviousTask_ne_linearScan_at_tie :
    SortedByAnchor [⟨10, 10, 2⟩, ⟨5, 10, 3⟩, ⟨10, 20, 4⟩] ∧
      findBestPreviousTask [⟨10, 10, 2⟩, ⟨5, 10, 3⟩, ⟨10, 20, 4⟩] 2 = -1 ∧
      linearScanBestPrevious [⟨10, 10, 2⟩, ⟨5, 10, 3⟩, ⟨10, 20, 4⟩] 2 = 1 := by
  refine ⟨?_, by decide, by decide⟩
  unfold SortedByAnchor
  decide

/-- Compatibility propagates downward across a strict anchor step: if the
task `t2` does not conflict with `t3`, and `t1` has a strictly smaller
anchor than `t2`, which in turn has anchor at most that of `t3`, then `t1` does
not conflict with `t3` either.  This is the monotonicity that makes the
binary search agree with the linear scan; it fails when `t1` and `t2`
share an anchor (the C6 counterexample). -/
theorem conflict_monotone (t1 t2 t3 : Task)
    (h12 : anchorTime t1 < anchorTime t2)
    (h23 : anchorTime t2 ≤ anchorTime t3)
    (h : tasksConflict t2 t3 = false) : tasksConflict t1 t3 = false := by
  have a1 := isZeroDuration_true_iff t1
  have a2 := isZeroDuration_true_iff t2
  have a3 := isZeroDuration_true_iff t3
  have n1 := isZeroDuration_false_iff t1
  have n2 := isZeroDuration_false_iff t2
  have n3 := isZeroDuration_false_iff t3
  unfold anchorTime at h12 h23
  unfold tasksConflict at h ⊢
  cases b1 : isZeroDuration t1 <;> cases b2 : isZeroDuration t2 <;>
    cases b3 : isZeroDuration t3 <;>
    simp_all [Int.not_lt] <;> omega

/-- The linear scan never returns less than `-1`. -/
theorem scanBack_ge (tasks : List Task) (cur : Task) (n : Nat) :
    -1 ≤ scanBack tasks cur n := by
  induction n with
  | zero => simp [scanBack]
  | succ n ih =>
    simp only [scanBack]
    split
    · exact ih
    · omega

/-- The linear scan over `0..n-1` returns a value below `n`. -/
theorem scanBack_lt (tasks : List Task) (cur : Task) (n : Nat) :
    scanBack tasks cur n < (n : Int) := by
  induction n with
  | zero => simp [scanBack]
  | succ n ih =>
    simp only [scanBack]
    split
    · push_cast; omega
    · push_cast; omega

/-- When the linear scan finds a position, the task at that position does not
conflict with the current task. -/
theorem scanBack_sat (tasks : List Task) (cur : Task) (n : Nat)
    (h : 0 ≤ scanBack tasks cur n) :
    tasksConflict (tasks.getD (scanBack tasks cur n).toNat default) cur = false := by
  induction n with
  | zero => simp [scanBack] at h
  | succ n ih =>
    rcases hc : tasksConflict (tasks.getD n default) cur with _ | _
    · simp only [scanBack, hc, if_false, Bool.false_eq_true]
      simpa using hc
    · simp only [scanBack, hc, if_true] at h ⊢
      exact ih h

/-- The linear scan returns the greatest compatible position: any
compatible `j < n` is at most the returned value. -/
theorem scanBack_greatest (tasks : List Task) (cur : Task) (n j : Nat)
    (hj : j < n) (hsat : tasksConflict (tasks.getD j default) cur = false) :
    (j : Int) ≤ scanBack tasks cur n := by
  induction n with
  | zero => omega
  | succ n ih =>
    rcases hc : tasksConflict (tasks.getD n default) cur with _ | _
    · simp only [scanBack, hc, if_false, Bool.false_eq_true]
      omega
    · simp only [scanBack, hc, if_true]
      rcases Nat.lt_succ_iff_lt_or_eq.mp hj with hlt | rfl
      · exact ih hlt
      · rw [hsat] at hc; cases hc

/-- Correctness of the binary-search loop over a downward-closed
compatibility predicate: starting from any state satisfying the loop
invariant (`best` is the best compatible position below `startSearch`, and
the scan target is at most `endSearch`), with enough fuel the loop returns
exactly what the linear scan over `0..N` returns. -/
theorem searchLoop_eq_scanBack (tasks : List Task) (cur : Task) (N : Nat)
    (hmono : ∀ j k : Nat, j ≤ k → k ≤ N →
      tasksConflict (tasks.getD k default) cur = false →
      tasksConflict (tasks.getD j default) cur = false) :
    ∀ fuel : Nat, ∀ lo hi best : Int, 0 ≤ lo → hi ≤ (N : Int) →
      (hi + 1 - lo).toNat ≤ fuel →
      best = min (scanBack tasks cur (N + 1)) (lo - 1) →
      scanBack tasks cur (N + 1) ≤ hi →
      searchLoop tasks cur fuel lo hi best = scanBack tasks cur (N + 1) := by
  intro fuel
  induction fuel with
  | zero =>
    intro lo hi best hlo hhiN hfuel hbest hThi
    simp only [searchLoop]
    rw [hbest, min_eq_left (by omega)]
  | succ fuel ih =>
    intro lo hi best hlo hhiN hfuel hbest hThi
    simp only [searchLoop]
    split_ifs with hcond hb
    · rw [Bool.not_eq_true'] at hb
      have hge : ((lo + hi) / 2 : Int) ≤ scanBack tasks cur (N + 1) := by
        have h2 := scanBack_greatest tasks cur (N + 1) ((lo + hi) / 2).toNat
          (by omega) hb
        omega
      refine ih ((lo + hi) / 2 + 1) hi ((lo + hi) / 2) (by omega) hhiN
        (by omega) ?_ hThi
      rw [min_eq_right (by omega)]
      omega
    · have hb2 : tasksConflict (tasks.getD ((lo + hi) / 2).toNat default) cur
          = true := by
        simpa using hb
      refine ih lo ((lo + hi) / 2 - 1) best hlo (by omega) (by omega) hbest ?_
      by_contra hTm
      push_neg at hTm
      have hT0 : 0 ≤ scanBack tasks cur (N + 1) := by omega
      have hsatT := scanBack_sat tasks cur (N + 1) hT0
      have hTlt := scanBack_lt tasks cur (N + 1)
      have hcm := hmono ((lo + hi) / 2).toNat
        (scanBack tasks cur (N + 1)).toNat (by omega) (by omega) hsatT
      rw [hb2] at hcm; cases hcm
    · rw [hbest, min_eq_left (by omega)]

/-- Claim C6 (corrected): on any task sequence whose anchor times are
strictly increasing below position `i` and at most the anchor at position `i`,
`findBestPreviousTask` returns exactly what the linear scan over positions
`0..i-1` returns: the greatest `j < i` whose task does not conflict with
task `i`, or `-1` when there is none.  (With merely non-decreasing anchors
the two can disagree — see the C6 counterexample — so the strictness
hypothesis is the amendment.) -/
theorem findBestPreviousTask_eq_linearScan_of_strict_anchors
    (tasks : List Task) (i : Nat)
    (hstrict : ∀ k, k < i → ∀ j, j < k →
      anchorTime (tasks.getD j default) < anchorTime (tasks.getD k default))
    (hle : ∀ k, k < i →
      anchorTime (tasks.getD k default) ≤ anchorTime (tasks.getD i default)) :
    findBestPreviousTask tasks i = linearScanBestPrevious tasks i := by
  cases i with
  | zero => rfl
  | succ N =>
    unfold findBestPreviousTask linearScanBestPrevious
    have hmono : ∀ j k : Nat, j ≤ k → k ≤ N →
        tasksConflict (tasks.getD k default) (tasks.getD (N + 1) default) = false →
        tasksConflict (tasks.getD j default) (tasks.getD (N + 1) default) = false := by
      intro j k hjk hkN hsat
      rcases Nat.eq_or_lt_of_le hjk with rfl | hlt
      · exact hsat
      · exact conflict_monotone _ _ _ (hstrict k (by omega) j hlt)
          (hle k (by omega)) hsat
    have hT1 := scanBack_ge tasks (tasks.getD (N + 1) default) (N + 1)
    have hT2 := scanBack_lt tasks (tasks.getD (N + 1) default) (N + 1)
    have hcast : ((N + 1 : Nat) : Int) - 1 = (N : Int) := by push_cast; ring
    rw [hcast]
    refine searchLoop_eq_scanBack tasks (tasks.getD (N + 1) default) N hmono
      (N + 1) 0 (N : Int) (-1) (by omega) (by omega) (by omega) ?_
      (by push_cast at hT2; omega)
    rw [min_eq_right (by omega)]
    omega

/-- Witness for the amended C6 theorem at a concrete strictly-anchored
sequence of three tasks. -/
theorem findBestPreviousTask_eq_linearScan_witness :
    ((∀ k, k < 2 → ∀ j, j < k →
        anchorTime (([⟨0, 1, 1⟩, ⟨1, 3, 2⟩, ⟨4, 4, 5⟩] : List Task).getD j default) <
          anchorTime (([⟨0, 1, 1⟩, ⟨1, 3, 2⟩, ⟨4, 4, 5⟩] : List Task).getD k default)) ∧
      (∀ k, k < 2 →
        anchorTime (([⟨0, 1, 1⟩, ⟨1, 3, 2⟩, ⟨4, 4, 5⟩] : List Task).getD k default) ≤
          anchorTime (([⟨0, 1, 1⟩, ⟨1, 3, 2⟩, ⟨4, 4, 5⟩] : List Task).getD 2 default))) ∧
    findBestPreviousTask [⟨0, 1, 1⟩, ⟨1, 3, 2⟩, ⟨4, 4, 5⟩] 2 =
      linearScanBestPrevious [⟨0, 1, 1⟩, ⟨1, 3, 2⟩, ⟨4, 4, 5⟩] 2 :=
  ⟨⟨by decide, by decide⟩,
    findBestPreviousTask_eq_linearScan_of_strict_anchors
      [⟨0, 1, 1⟩, ⟨1, 3, 2⟩, ⟨4, 4, 5⟩] 2 (by decide) (by decide)⟩

/-- Claim C7 (confirmed): in the DP step of `FindBestSchedule`, for any
position `i+1 ≥ 1`, when the include value — the weight of the task plus the
accumulated best weight of its best compatible predecessor, or the weight
alone when there is none — exactly equals the exclude value (the best
weight up to position `i`), the task is excluded: the best-weight array
extends with the exclude value, the predecessor-choice array copies the
entry at position `i`, and the task is appended to the rejected list with
the low-priority (outweighed) reason.  The include branch of the source
runs only on strict `>`, so ties always take this branch. -/
theorem dp_tie_excludes (tasks : List Task) (i : Nat)
    (h : (tasks.getD (i + 1) default).Priority +
        (if findBestPreviousTask tasks (i + 1) ≠ -1 then
          (dpAux tasks i).1.getD (findBestPreviousTask tasks (i + 1)).toNat 0
        else 0) =
      (dpAux tasks i).1.getD i 0) :
    dpAux tasks (i + 1) =
      ((dpAux tasks i).1 ++ [(dpAux tasks i).1.getD i 0],
       (dpAux tasks i).2.1 ++ [(dpAux tasks i).2.1.getD i (-1)],
       (dpAux tasks i).2.2 ++
         [⟨tasks.getD (i + 1) default, none,
           RejectionReason.RejectionReasonLowPriority⟩]) := by
  have hnot : ¬ ((tasks.getD (i + 1) default).Priority +
      (if findBestPreviousTask tasks (i + 1) ≠ -1 then
        (dpAux tasks i).1.getD (findBestPreviousTask tasks (i + 1)).toNat 0
      else 0) >
      (dpAux tasks i).1.getD i 0) := by
    rw [h]
    exact lt_irrefl _
  simp only [dpAux]
  rw [if_neg hnot]

/-- Witness for the C7 tie theorem: two fully-overlapping tasks of equal
weight 5; at position 1 the include value and the exclude value are both 5,
and the position-1 task is excluded and tagged low-priority. -/
theorem dp_tie_excludes_witness :
    ((([⟨0, 2, 5⟩, ⟨1, 3, 5⟩] : List Task).getD 1 default).Priority +
        (if findBestPreviousTask [⟨0, 2, 5⟩, ⟨1, 3, 5⟩] 1 ≠ -1 then
          (dpAux [⟨0, 2, 5⟩, ⟨1, 3, 5⟩] 0).1.getD
            (findBestPreviousTask [⟨0, 2, 5⟩, ⟨1, 3, 5⟩] 1).toNat 0
        else 0) =
      (dpAux [⟨0, 2, 5⟩, ⟨1, 3, 5⟩] 0).1.getD 0 0) ∧
    dpAux [⟨0, 2, 5⟩, ⟨1, 3, 5⟩] 1 =
      ((dpAux [⟨0, 2, 5⟩, ⟨1, 3, 5⟩] 0).1 ++
         [(dpAux [⟨0, 2, 5⟩, ⟨1, 3, 5⟩] 0).1.getD 0 0],
       (dpAux [⟨0, 2, 5⟩, ⟨1, 3, 5⟩] 0).2.1 ++
         [(dpAux [⟨0, 2, 5⟩, ⟨1, 3, 5⟩] 0).2.1.getD 0 (-1)],
       (dpAux [⟨0, 2, 5⟩, ⟨1, 3, 5⟩] 0).2.2 ++
         [⟨([⟨0, 2, 5⟩, ⟨1, 3, 5⟩] : List Task).getD 1 default, none,
           RejectionReason.RejectionReasonLowPriority⟩]) :=
  ⟨by decide, dp_tie_excludes [⟨0, 2, 5⟩, ⟨1, 3, 5⟩] 0 (by decide)⟩

end Scheduler
